import Mathlib

/-
Verification of the caddy-dynamic-routing plugin (Go sources
tls-redis.go and the routing middleware file) against its
natural-language specification.

Modelling conventions
  * Go strings are modelled as `List Char` (`Str` below); `fmt.Sprintf
    "%s:%s" a b` becomes `a ++ ':' :: b` and `strings.Join [h, p] ":"`
    becomes `h ++ ':' :: p`.
  * A PEM bundle is modelled as the sequence of blocks that successive
    `pem.Decode` calls would yield: `pem.Decode` pops the head block and
    returns the rest, and returns nil on an exhausted input.  `pem.Encode`
    into a `bytes.Buffer` never fails and always writes a non-empty
    armoured text for a block, so a builder buffer is modelled as the
    list of blocks encoded into it, in order; emptiness of the byte
    stream coincides with emptiness of that list.
  * The final `tls.X509KeyPair` call of `tlsCertFromCertAndKeyPEMBundle`
    is external cryptography (crypto/tls), outside this repository; the
    decoder model returns the two accumulated PEM streams that the Go
    function hands to it.
  * The Redis client (`HGet`) is modelled as an explicit fetch function
    passed to `serveHTTP`, and the next handler in the middleware chain
    as a function from the current request host to the error it returns.
  * The Caddyfile dispenser loop (`for d.Next() { for d.NextBlock(0) ... }`)
    is modelled as a fold over a flat list of directives, each a name with
    an optional argument, exactly mirroring the switch in the source.
-/

namespace CaddyDynamicRouting

/-- Go strings, modelled as lists of characters. -/
abbrev Str := List Char

/-- A decoded PEM block (`pem.Block`): its type line and its DER payload
bytes.  Header lines are never inspected by the code and are folded into
the payload identity. -/
structure PEMBlock where
  type : Str
  bytes : List Nat
deriving DecidableEq, Repr

/-- The key-block test of the scan loop in `tlsCertFromCertAndKeyPEMBundle`
(tls-redis.go line 176): `derBlock.Type == "PRIVATE KEY" ||
strings.HasSuffix(derBlock.Type, " PRIVATE KEY")`. -/
def isKeyBlockType (t : Str) : Prop :=
  t = "PRIVATE KEY".toList ∨ " PRIVATE KEY".toList.isSuffixOf t = true

instance (t : Str) : Decidable (isKeyBlockType t) := by
  unfold isKeyBlockType; infer_instance

/-- The scan loop of `tlsCertFromCertAndKeyPEMBundle`
(tls-redis.go lines 144-187).  Arguments: remaining bundle, certificate
builder, key builder, `foundKey` flag.  Returns the two builders on
normal exit, or the error the loop returns early with. -/
def scanBundle : List PEMBlock → List PEMBlock → List PEMBlock → Bool →
    Except Str (List PEMBlock × List PEMBlock)
  | [], certAcc, keyAcc, _ => .ok (certAcc, keyAcc)
  | b :: rest, certAcc, keyAcc, foundKey =>
    if b.type = "CERTIFICATE".toList then
      scanBundle rest (certAcc ++ [b]) keyAcc foundKey
    else if b.type = "EC PARAMETERS".toList then
      if foundKey then
        scanBundle rest certAcc keyAcc foundKey
      else
        match rest with
        | [] =>
          .error "expected elliptic private key to immediately follow EC parameters".toList
        | b2 :: rest2 =>
          if b2.type = "EC PRIVATE KEY".toList then
            scanBundle rest2 certAcc (keyAcc ++ [b, b2]) true
          else
            .error "expected elliptic private key to immediately follow EC parameters".toList
    else if isKeyBlockType b.type then
      if foundKey then
        scanBundle rest certAcc keyAcc foundKey
      else
        scanBundle rest certAcc (keyAcc ++ [b]) true
    else
      .error ("unrecognized PEM block type: ".toList ++ b.type)

/-- Model of `tlsCertFromCertAndKeyPEMBundle` (tls-redis.go lines
140-203) up to, and excluding, the external `tls.X509KeyPair` call: scan
the bundle, then apply the two post-scan emptiness checks in the order
the source performs them, and return the certificate-chain and key PEM
streams that the source would hand to `tls.X509KeyPair`. -/
def tlsCertFromCertAndKeyPEMBundle (bundle : List PEMBlock) :
    Except Str (List PEMBlock × List PEMBlock) :=
  match scanBundle bundle [] [] false with
  | .error e => .error e
  | .ok (certPEMBytes, keyPEMBytes) =>
    if certPEMBytes = [] then .error "failed to parse PEM data".toList
    else if keyPEMBytes = [] then .error "no private key block found".toList
    else .ok (certPEMBytes, keyPEMBytes)

/-- A key-bearing block group as described by the spec: either a single
generic private-key block, or an `EC PARAMETERS` block immediately
followed by an `EC PRIVATE KEY` block. -/
inductive KeyGroup : List PEMBlock → Prop
  | generic (b : PEMBlock) (hb : isKeyBlockType b.type) : KeyGroup [b]
  | ecPair (p k : PEMBlock) (hp : p.type = "EC PARAMETERS".toList)
      (hk : k.type = "EC PRIVATE KEY".toList) : KeyGroup [p, k]

/-- The options handed to the Redis client: address string and logical
database index (`redis.Options{Addr, DB}`). -/
structure RedisOptions where
  Addr : Str
  DB : Int
deriving DecidableEq, Repr

/-- The routing middleware struct (routing middleware file, lines
23-32): the exported configuration fields.  The Go field `Prefix` is
named `Pfx` here because `prefix` is a reserved word in Lean; the
context/client/logger handles are external I/O state outside the model.
Go zero values are the structure defaults, as produced by
`new(Middleware)` / `var m Middleware`. -/
structure Middleware where
  Pfx : Str := []
  TokenKey : Str := []
  Domain : Str := []
  redisOptions : RedisOptions := ⟨[], 0⟩
deriving DecidableEq, Repr

/-- The certificate-resolver struct `RedisCertGetter` (tls-redis.go
lines 21-28), with the same renaming of `Prefix` to `Pfx`. -/
structure RedisCertGetter where
  Pfx : Str := []
  CertKey : Str := []
  redisOptions : RedisOptions := ⟨[], 0⟩
deriving DecidableEq, Repr

/-- One Caddyfile directive inside the block: the directive name
(`d.Val()` at the top of the switch) and its optional argument
(`d.NextArg()` / `d.Val()`). -/
structure Directive where
  name : Str
  arg : Option Str
deriving DecidableEq, Repr

/-- Go `strconv.Atoi` restricted to what the source needs: optional
sign, at least one decimal digit, no other characters, result within
the 64-bit signed integer range; `none` is Go's non-nil error. -/
def digitsToNat : Str → Option Nat
  | [] => none
  | ds =>
    if ds.all (fun c => c.isDigit) then
      some (ds.foldl (fun acc c => acc * 10 + (c.toNat - '0'.toNat)) 0)
    else none

/-- Sign handling and range check of `strconv.Atoi`. -/
def goAtoi (s : Str) : Option Int :=
  let signed : Option Int :=
    match s with
    | '+' :: rest => (digitsToNat rest).map Int.ofNat
    | '-' :: rest => (digitsToNat rest).map (fun n => -(n : Int))
    | _ => (digitsToNat s).map Int.ofNat
  match signed with
  | none => none
  | some i => if -(2 ^ 63) ≤ i ∧ i < 2 ^ 63 then some i else none

/-- The directive loop of `Middleware.UnmarshalCaddyfile` (routing
middleware file, lines 68-123).  Arguments mirror the Go locals `host`,
`port`, `db`, `prefix` (`pfx`), `tokenKey` alongside the struct being
filled in; the final empty-list case performs the post-loop
`redisOptions` assignment.  Error strings: `d.ArgErr()` is modelled by
its fixed prefix text, `d.Err` and `d.Errf` by their formatted
messages. -/
def mwLoop (m : Middleware) (host port : Str) (db : Int) (pfx tokenKey : Str) :
    List Directive → Except Str Middleware
  | [] => .ok { m with redisOptions := ⟨host ++ ':' :: port, db⟩ }
  | d :: rest =>
    if d.name = "host".toList then
      mwLoop m (d.arg.getD host) port db pfx tokenKey rest
    else if d.name = "port".toList then
      mwLoop m host (d.arg.getD port) db pfx tokenKey rest
    else if d.name = "db".toList then
      match d.arg with
      | none => mwLoop m host port db pfx tokenKey rest
      | some v =>
        match goAtoi v with
        | none => .error "wrong argument count or unexpected line ending".toList
        | some parsedDb => mwLoop m host port parsedDb pfx tokenKey rest
    else if d.name = "prefix".toList then
      let pfx' := d.arg.getD pfx
      mwLoop { m with Pfx := pfx' } host port db pfx' tokenKey rest
    else if d.name = "domain".toList then
      match d.arg with
      | none => .error "expect domain value".toList
      | some v => mwLoop { m with Domain := v } host port db pfx tokenKey rest
    else if d.name = "tokenKey".toList then
      let tk' := d.arg.getD tokenKey
      mwLoop { m with TokenKey := tk' } host port db pfx tk' rest
    else
      .error ("Unknown field: ".toList ++ d.name)

/-- `Middleware.UnmarshalCaddyfile` on a fresh zero-valued struct (as
`parseCaddyfile` runs it), with the source's declared local defaults. -/
def mwUnmarshalCaddyfile (ds : List Directive) : Except Str Middleware :=
  mwLoop {} "127.0.0.1".toList "6379".toList 0 "s".toList "token".toList ds

/-- `Middleware.Provision` (routing middleware file, lines 42-48): it
stores the context, logger and a fresh Redis client — all external
handles outside the model — and unconditionally returns nil. -/
def mwProvision (m : Middleware) : Except Str Middleware := .ok m

/-- The directive loop of `RedisCertGetter.UnmarshalCaddyfile`
(tls-redis.go lines 73-125), identical in shape to `mwLoop` but with a
`certKey` case and no `domain` case. -/
def rcgLoop (g : RedisCertGetter) (host port : Str) (db : Int) (pfx certKey : Str) :
    List Directive → Except Str RedisCertGetter
  | [] => .ok { g with redisOptions := ⟨host ++ ':' :: port, db⟩ }
  | d :: rest =>
    if d.name = "host".toList then
      rcgLoop g (d.arg.getD host) port db pfx certKey rest
    else if d.name = "port".toList then
      rcgLoop g host (d.arg.getD port) db pfx certKey rest
    else if d.name = "db".toList then
      match d.arg with
      | none => rcgLoop g host port db pfx certKey rest
      | some v =>
        match goAtoi v with
        | none => .error "wrong argument count or unexpected line ending".toList
        | some parsedDb => rcgLoop g host port parsedDb pfx certKey rest
    else if d.name = "prefix".toList then
      let pfx' := d.arg.getD pfx
      rcgLoop { g with Pfx := pfx' } host port db pfx' certKey rest
    else if d.name = "certKey".toList then
      let ck' := d.arg.getD certKey
      rcgLoop { g with CertKey := ck' } host port db pfx ck' rest
    else
      .error ("Unknown field: ".toList ++ d.name)

/-- `RedisCertGetter.UnmarshalCaddyfile` on a fresh zero-valued struct,
with the source's declared local defaults. -/
def rcgUnmarshalCaddyfile (ds : List Directive) : Except Str RedisCertGetter :=
  rcgLoop {} "127.0.0.1".toList "6379".toList 0 "s".toList "cert".toList ds

/-- The value `Middleware.UnmarshalCaddyfile` produces from an empty
directive block: the exported fields keep their Go zero values and only
`redisOptions` is filled from the local defaults. -/
def mwDefaultParsed : Middleware :=
  { Pfx := [], TokenKey := [], Domain := [],
    redisOptions := ⟨"127.0.0.1:6379".toList, 0⟩ }

/-- The value `RedisCertGetter.UnmarshalCaddyfile` produces from an
empty directive block. -/
def rcgDefaultParsed : RedisCertGetter :=
  { Pfx := [], CertKey := [],
    redisOptions := ⟨"127.0.0.1:6379".toList, 0⟩ }

/-- The result of one Redis `HGet(...).Result()` call: the value, or a
non-nil error (connection failure, missing record, or missing field). -/
inductive FetchResult where
  | ok (value : Str)
  | err (msg : Str)
deriving DecidableEq, Repr

/-- What one `Middleware.ServeHTTP` call did to the request: the value
of `r.Host` when the call returns, whether `next.ServeHTTP(w, r)` was
invoked, and the error the call returns (`none` is a nil error). -/
structure ServeOutcome where
  host : Str
  nextCalled : Bool
  result : Option Str
deriving DecidableEq, Repr

/-- The first-occurrence replacement `strings.Replace(s, old, new, 1)`
performs for a non-empty pattern: scan left to right, replace the first
match, copy the rest. -/
def replaceFirstAux (pat rep : Str) : Str → Str
  | [] => []
  | c :: rest =>
    if pat.isPrefixOf (c :: rest) then rep ++ (c :: rest).drop pat.length
    else c :: replaceFirstAux pat rep rest

/-- Go `strings.Replace(s, old, new, 1)` including the empty-pattern
case, in which Go inserts `new` once before the first character. -/
def stringsReplaceOne (s pat rep : Str) : Str :=
  if pat = [] then rep ++ s else replaceFirstAux pat rep s

/-- `Middleware.ServeHTTP` (routing middleware file, lines 51-65).
`fetch key field` models `m.redisClient.HGet(ctx, key, field).Result()`;
`next h` models the error `next.ServeHTTP(w, r)` returns when `r.Host`
is `h` at the time of the call. -/
def serveHTTP (m : Middleware) (host : Str) (fetch : Str → Str → FetchResult)
    (next : Str → Option Str) : ServeOutcome :=
  match fetch (m.Pfx ++ ':' :: host) m.TokenKey with
  | .err e => ⟨host, false, some e⟩
  | .ok token =>
    let newHost :=
      if token ≠ [] then stringsReplaceOne m.Domain "{{token}}".toList token
      else host
    ⟨newHost, true, next newHost⟩

/-- Unfolding equation for `scanBundle` on a non-empty bundle. -/
theorem scanBundle_cons (b : PEMBlock) (rest certAcc keyAcc : List PEMBlock) (foundKey : Bool) :
    scanBundle (b :: rest) certAcc keyAcc foundKey =
    (if b.type = "CERTIFICATE".toList then
      scanBundle rest (certAcc ++ [b]) keyAcc foundKey
    else if b.type = "EC PARAMETERS".toList then
      if foundKey then
        scanBundle rest certAcc keyAcc foundKey
      else
        match rest with
        | [] =>
          .error "expected elliptic private key to immediately follow EC parameters".toList
        | b2 :: rest2 =>
          if b2.type = "EC PRIVATE KEY".toList then
            scanBundle rest2 certAcc (keyAcc ++ [b, b2]) true
          else
            .error "expected elliptic private key to immediately follow EC parameters".toList
    else if isKeyBlockType b.type then
      if foundKey then
        scanBundle rest certAcc keyAcc foundKey
      else
        scanBundle rest certAcc (keyAcc ++ [b]) true
    else
      .error ("unrecognized PEM block type: ".toList ++ b.type)) := by
  rw [scanBundle.eq_def]

/-- Unfolding equation for `scanBundle` on the exhausted bundle. -/
theorem scanBundle_nil (certAcc keyAcc : List PEMBlock) (foundKey : Bool) :
    scanBundle [] certAcc keyAcc foundKey = .ok (certAcc, keyAcc) := by
  rw [scanBundle.eq_def]

/-- A run of `CERTIFICATE` blocks is absorbed into the certificate
builder, in order, whatever the state of the key flag. -/
theorem scan_cert_run (pre : List PEMBlock)
    (h : ∀ b ∈ pre, b.type = "CERTIFICATE".toList) :
    ∀ (rest certAcc keyAcc : List PEMBlock) (fk : Bool),
      scanBundle (pre ++ rest) certAcc keyAcc fk =
      scanBundle rest (certAcc ++ pre) keyAcc fk := by
  induction pre with
  | nil => intro rest certAcc keyAcc fk; simp
  | cons b pre ih =>
    intro rest certAcc keyAcc fk
    have hb : b.type = "CERTIFICATE".toList := h b (by simp)
    have hrec := ih (fun x hx => h x (by simp [hx])) rest (certAcc ++ [b]) keyAcc fk
    rw [List.cons_append, scanBundle_cons, if_pos hb, hrec]
    simp

/-- A bundle consisting only of `CERTIFICATE` blocks scans to those
blocks appended to the certificate builder. -/
theorem scan_all_certs (post : List PEMBlock)
    (h : ∀ b ∈ post, b.type = "CERTIFICATE".toList) :
    ∀ (certAcc keyAcc : List PEMBlock) (fk : Bool),
      scanBundle post certAcc keyAcc fk = .ok (certAcc ++ post, keyAcc) := by
  intro certAcc keyAcc fk
  have h1 := scan_cert_run post h [] certAcc keyAcc fk
  rw [List.append_nil] at h1
  rw [h1, scanBundle_nil]

/-- With no key found yet, a key group is absorbed into the key builder
and sets the key flag. -/
theorem scan_keygroup (kg : List PEMBlock) (hkg : KeyGroup kg) :
    ∀ (rest certAcc keyAcc : List PEMBlock),
      scanBundle (kg ++ rest) certAcc keyAcc false =
      scanBundle rest certAcc (keyAcc ++ kg) true := by
  cases hkg with
  | generic b hb =>
    intro rest certAcc keyAcc
    have hc : ¬ b.type = "CERTIFICATE".toList := by
      intro e; rw [e] at hb; exact absurd hb (by decide)
    have he : ¬ b.type = "EC PARAMETERS".toList := by
      intro e; rw [e] at hb; exact absurd hb (by decide)
    rw [List.cons_append, List.nil_append, scanBundle_cons, if_neg hc, if_neg he, if_pos hb]
    simp
  | ecPair p k hp hk =>
    intro rest certAcc keyAcc
    have hc : ¬ p.type = "CERTIFICATE".toList := by rw [hp]; decide
    rw [List.cons_append, List.cons_append, List.nil_append, scanBundle_cons, if_neg hc,
      if_pos hp]
    simp [hk]

/-- Once the key flag is set, an `EC PARAMETERS` block anywhere in the
remaining bundle is skipped without consuming a lookahead block: the
scan of the bundle with the block inserted equals the scan of the
bundle without it. -/
theorem scan_found_skips_ec (ec : PEMBlock)
    (hec : ec.type = "EC PARAMETERS".toList) :
    ∀ (mid trail certAcc keyAcc : List PEMBlock),
      scanBundle (mid ++ ec :: trail) certAcc keyAcc true =
      scanBundle (mid ++ trail) certAcc keyAcc true := by
  intro mid
  induction mid with
  | nil =>
    intro trail certAcc keyAcc
    have hc : ¬ ec.type = "CERTIFICATE".toList := by rw [hec]; decide
    rw [List.nil_append, List.nil_append, scanBundle_cons, if_neg hc, if_pos hec]
    simp
  | cons b mid ih =>
    intro trail certAcc keyAcc
    rw [List.cons_append, List.cons_append, scanBundle_cons, scanBundle_cons]
    by_cases h1 : b.type = "CERTIFICATE".toList
    · rw [if_pos h1, if_pos h1, ih]
    · rw [if_neg h1, if_neg h1]
      by_cases h2 : b.type = "EC PARAMETERS".toList
      · rw [if_pos h2, if_pos h2]
        simp [ih]
      · rw [if_neg h2, if_neg h2]
        by_cases h3 : isKeyBlockType b.type
        · rw [if_pos h3, if_pos h3]
          simp [ih]
        · rw [if_neg h3, if_neg h3]

/-- A key group is a non-empty block list. -/
theorem KeyGroup.ne_nil {kg : List PEMBlock} (h : KeyGroup kg) : kg ≠ [] := by
  cases h <;> simp

/-- C1: for every well-formed bundle with exactly one certificate chain
and one key — certificate blocks `pre`, then the single key-bearing
group `kg` (a generic private-key block, or the EC PARAMETERS + EC
PRIVATE KEY pair), then further certificate blocks `post` — the decoder
succeeds and returns a chain stream holding exactly the re-encoded
`CERTIFICATE` blocks in encounter order (including those found after
the key) and a key stream holding exactly the first key-bearing
group. -/
theorem C1_wellformed_decode (pre kg post : List PEMBlock)
    (hpre : ∀ b ∈ pre, b.type = "CERTIFICATE".toList)
    (hpost : ∀ b ∈ post, b.type = "CERTIFICATE".toList)
    (hne : pre ++ post ≠ [])
    (hkg : KeyGroup kg) :
    tlsCertFromCertAndKeyPEMBundle (pre ++ (kg ++ post)) = .ok (pre ++ post, kg) := by
  have hkgne : kg ≠ [] := hkg.ne_nil
  unfold tlsCertFromCertAndKeyPEMBundle
  rw [scan_cert_run pre hpre, List.nil_append, scan_keygroup kg hkg, List.nil_append,
    scan_all_certs post hpost]
  simp [hne, hkgne]

/-- C1 witness: a concrete certificate / key / certificate bundle
decodes to that chain and that key. -/
theorem C1_wellformed_decode_witness :
    tlsCertFromCertAndKeyPEMBundle
      [⟨"CERTIFICATE".toList, [1]⟩, ⟨"PRIVATE KEY".toList, [2]⟩, ⟨"CERTIFICATE".toList, [3]⟩] =
    .ok ([⟨"CERTIFICATE".toList, [1]⟩, ⟨"CERTIFICATE".toList, [3]⟩],
      [⟨"PRIVATE KEY".toList, [2]⟩]) := by
  have h := C1_wellformed_decode [⟨"CERTIFICATE".toList, [1]⟩] [⟨"PRIVATE KEY".toList, [2]⟩]
    [⟨"CERTIFICATE".toList, [3]⟩] (by decide) (by decide) (by decide)
    (KeyGroup.generic _ (by decide))
  simpa using h

/-- C4 (amended): whenever the scan completes with an empty
certificate-chain builder — in particular on the empty bundle and on a
key-only bundle — the decoder fails with the chain-empty error, whose
text in the source is "failed to parse PEM data"; the chain check runs
before the key check, so this holds whether or not a key was
accumulated. -/
theorem C4_chain_empty_error (bundle keyAcc : List PEMBlock)
    (h : scanBundle bundle [] [] false = .ok ([], keyAcc)) :
    tlsCertFromCertAndKeyPEMBundle bundle = .error "failed to parse PEM data".toList := by
  unfold tlsCertFromCertAndKeyPEMBundle
  rw [h]
  rfl

/-- C4 witness: a bundle holding only a valid private-key block scans
to an empty chain builder and a non-empty key builder, and the decoder
reports the chain-empty error, not the key-missing one. -/
theorem C4_chain_empty_error_witness :
    scanBundle [⟨"PRIVATE KEY".toList, [2]⟩] [] [] false =
      .ok ([], [⟨"PRIVATE KEY".toList, [2]⟩]) ∧
    tlsCertFromCertAndKeyPEMBundle [⟨"PRIVATE KEY".toList, [2]⟩] =
      .error "failed to parse PEM data".toList :=
  ⟨rfl, C4_chain_empty_error [⟨"PRIVATE KEY".toList, [2]⟩] [⟨"PRIVATE KEY".toList, [2]⟩] rfl⟩

/-- C4 counterexample: the claim quotes the chain-empty error as
"failed to parse bundle", but on a key-only bundle the source fails
with the distinct text "failed to parse PEM data". -/
theorem C4_message_counterexample :
    tlsCertFromCertAndKeyPEMBundle [⟨"PRIVATE KEY".toList, [2]⟩] =
      .error "failed to parse PEM data".toList ∧
    "failed to parse PEM data".toList ≠ "failed to parse bundle".toList :=
  ⟨rfl, by decide⟩

/-- With the key flag still unset, an `EC PARAMETERS` block whose
successor is missing or mismatched makes the scan return the pairing
error. -/
theorem scan_ec_pair_mismatch (ec : PEMBlock) (rest certAcc keyAcc : List PEMBlock)
    (hec : ec.type = "EC PARAMETERS".toList)
    (hnext : rest = [] ∨ ∃ b2 rest2, rest = b2 :: rest2 ∧ b2.type ≠ "EC PRIVATE KEY".toList) :
    scanBundle (ec :: rest) certAcc keyAcc false =
      .error "expected elliptic private key to immediately follow EC parameters".toList := by
  have hc : ¬ ec.type = "CERTIFICATE".toList := by rw [hec]; decide
  rw [scanBundle_cons, if_neg hc, if_pos hec]
  rcases hnext with h | ⟨b2, rest2, hr, hb2⟩
  · subst h
    rfl
  · subst hr
    exact if_neg hb2

/-- C5 (amended): when an `EC PARAMETERS` block is reached before any
key has been found (it is preceded only by certificate blocks, the only
prefixes that leave the scan keyless) and the immediately following
block is missing or not an `EC PRIVATE KEY`, the decoder fails with the
structural pairing error, whose text in the source is "expected
elliptic private key to immediately follow EC parameters". -/
theorem C5_ec_pairing_error (pre : List PEMBlock) (ec : PEMBlock) (rest : List PEMBlock)
    (hpre : ∀ b ∈ pre, b.type = "CERTIFICATE".toList)
    (hec : ec.type = "EC PARAMETERS".toList)
    (hnext : rest = [] ∨ ∃ b2 rest2, rest = b2 :: rest2 ∧ b2.type ≠ "EC PRIVATE KEY".toList) :
    tlsCertFromCertAndKeyPEMBundle (pre ++ ec :: rest) =
      .error "expected elliptic private key to immediately follow EC parameters".toList := by
  unfold tlsCertFromCertAndKeyPEMBundle
  rw [scan_cert_run pre hpre, scan_ec_pair_mismatch ec rest _ _ hec hnext]

/-- C5 witness: a bundle ending in a bare `EC PARAMETERS` block fails
with the pairing error. -/
theorem C5_ec_pairing_error_witness :
    tlsCertFromCertAndKeyPEMBundle [⟨"EC PARAMETERS".toList, []⟩] =
      .error "expected elliptic private key to immediately follow EC parameters".toList := by
  simpa using C5_ec_pairing_error [] ⟨"EC PARAMETERS".toList, []⟩ [] (by decide) rfl
    (Or.inl rfl)

/-- C5 counterexample: the claim quotes the pairing error as "EC
parameters must be immediately followed by the EC private key", but the
source fails with the distinct text "expected elliptic private key to
immediately follow EC parameters". -/
theorem C5_message_counterexample :
    tlsCertFromCertAndKeyPEMBundle [⟨"EC PARAMETERS".toList, []⟩] =
      .error "expected elliptic private key to immediately follow EC parameters".toList ∧
    "expected elliptic private key to immediately follow EC parameters".toList ≠
      "EC parameters must be immediately followed by the EC private key".toList :=
  ⟨rfl, by decide⟩

/-- C6: once a key group has been consumed, an `EC PARAMETERS` block
appearing anywhere later in the bundle is silently ignored — no pairing
error is raised, no lookahead block is consumed, and the decoder's
result on the bundle with the orphaned block equals its result on the
bundle without it. -/
theorem C6_orphan_ec_ignored (pre kg mid trail : List PEMBlock) (ec : PEMBlock)
    (hpre : ∀ b ∈ pre, b.type = "CERTIFICATE".toList)
    (hkg : KeyGroup kg)
    (hec : ec.type = "EC PARAMETERS".toList) :
    tlsCertFromCertAndKeyPEMBundle (pre ++ (kg ++ (mid ++ ec :: trail))) =
    tlsCertFromCertAndKeyPEMBundle (pre ++ (kg ++ (mid ++ trail))) := by
  unfold tlsCertFromCertAndKeyPEMBundle
  rw [scan_cert_run pre hpre, scan_cert_run pre hpre, scan_keygroup kg hkg,
    scan_keygroup kg hkg, scan_found_skips_ec ec hec]

/-- C6 witness: appending an orphaned `EC PARAMETERS` block after a
certificate and a key leaves the decoder's result unchanged. -/
theorem C6_orphan_ec_ignored_witness :
    tlsCertFromCertAndKeyPEMBundle
      [⟨"CERTIFICATE".toList, [1]⟩, ⟨"PRIVATE KEY".toList, [2]⟩, ⟨"EC PARAMETERS".toList, []⟩] =
    tlsCertFromCertAndKeyPEMBundle
      [⟨"CERTIFICATE".toList, [1]⟩, ⟨"PRIVATE KEY".toList, [2]⟩] := by
  simpa using C6_orphan_ec_ignored [⟨"CERTIFICATE".toList, [1]⟩] [⟨"PRIVATE KEY".toList, [2]⟩]
    [] [] ⟨"EC PARAMETERS".toList, []⟩ (by decide) (KeyGroup.generic _ (by decide)) rfl

/-- Unfolding equation for `mwLoop` on a non-empty directive list. -/
theorem mwLoop_cons (m : Middleware) (host port : Str) (db : Int) (pfx tokenKey : Str)
    (d : Directive) (rest : List Directive) :
    mwLoop m host port db pfx tokenKey (d :: rest) =
    (if d.name = "host".toList then
      mwLoop m (d.arg.getD host) port db pfx tokenKey rest
    else if d.name = "port".toList then
      mwLoop m host (d.arg.getD port) db pfx tokenKey rest
    else if d.name = "db".toList then
      match d.arg with
      | none => mwLoop m host port db pfx tokenKey rest
      | some v =>
        match goAtoi v with
        | none => .error "wrong argument count or unexpected line ending".toList
        | some parsedDb => mwLoop m host port parsedDb pfx tokenKey rest
    else if d.name = "prefix".toList then
      mwLoop { m with Pfx := d.arg.getD pfx } host port db (d.arg.getD pfx) tokenKey rest
    else if d.name = "domain".toList then
      match d.arg with
      | none => .error "expect domain value".toList
      | some v => mwLoop { m with Domain := v } host port db pfx tokenKey rest
    else if d.name = "tokenKey".toList then
      mwLoop { m with TokenKey := d.arg.getD tokenKey } host port db pfx
        (d.arg.getD tokenKey) rest
    else
      .error ("Unknown field: ".toList ++ d.name)) := by
  rw [mwLoop.eq_def]

/-- Running `mwLoop` over directives that never mention `domain` leaves
the `Domain` field of the struct being filled untouched. -/
theorem mwLoop_preserves_domain :
    ∀ (ds : List Directive) (m : Middleware) (host port : Str) (db : Int)
      (pfx tk : Str) (m' : Middleware),
      (∀ d ∈ ds, d.name ≠ "domain".toList) →
      mwLoop m host port db pfx tk ds = .ok m' → m'.Domain = m.Domain := by
  intro ds
  induction ds with
  | nil =>
    intro m host port db pfx tk m' _ h
    rw [mwLoop.eq_def] at h
    simp only [Except.ok.injEq] at h
    subst h
    rfl
  | cons d rest ih =>
    intro m host port db pfx tk m' hno h
    have hd : d.name ≠ "domain".toList := hno d (by simp)
    have hrest : ∀ x ∈ rest, x.name ≠ "domain".toList := fun x hx => hno x (by simp [hx])
    rw [mwLoop_cons] at h
    by_cases h1 : d.name = "host".toList
    · rw [if_pos h1] at h
      exact ih _ _ _ _ _ _ _ hrest h
    · rw [if_neg h1] at h
      by_cases h2 : d.name = "port".toList
      · rw [if_pos h2] at h
        exact ih _ _ _ _ _ _ _ hrest h
      · rw [if_neg h2] at h
        by_cases h3 : d.name = "db".toList
        · rw [if_pos h3] at h
          split at h
          · exact ih _ _ _ _ _ _ _ hrest h
          · split at h
            · simp at h
            · exact ih _ _ _ _ _ _ _ hrest h
        · rw [if_neg h3] at h
          by_cases h4 : d.name = "prefix".toList
          · rw [if_pos h4] at h
            have h5 := ih _ _ _ _ _ _ _ hrest h
            exact h5
          · rw [if_neg h4, if_neg hd] at h
            by_cases h6 : d.name = "tokenKey".toList
            · rw [if_pos h6] at h
              have h5 := ih _ _ _ _ _ _ _ hrest h
              exact h5
            · rw [if_neg h6] at h
              simp at h

/-- C2: evaluation of both unmarshallers on an empty directive block
(every option absent).  The declared defaults for `prefix`, `certKey`
and `tokenKey` are copied into the struct only inside their directive
cases, so with the directives absent the constructed resolvers keep the
Go zero value "" in `Prefix`, `CertKey` and `TokenKey` instead of the
documented defaults "s", "cert" and "token"; only the address and
database defaults are applied. -/
theorem C2_absent_options_keep_zero_values :
    mwUnmarshalCaddyfile [] = .ok mwDefaultParsed ∧
    mwDefaultParsed.Pfx = [] ∧
    mwDefaultParsed.TokenKey = [] ∧
    rcgUnmarshalCaddyfile [] = .ok rcgDefaultParsed ∧
    rcgDefaultParsed.Pfx = [] ∧
    rcgDefaultParsed.CertKey = [] ∧
    ([] : Str) ≠ "s".toList ∧ ([] : Str) ≠ "cert".toList ∧ ([] : Str) ≠ "token".toList := by
  refine ⟨rfl, rfl, rfl, rfl, rfl, rfl, ?_, ?_, ?_⟩ <;> decide

/-- C3 (amended): the `domain` directive causes a configuration error
exactly when it is present without a value; when the directive is
entirely absent the unmarshaller leaves `Domain` empty and succeeds,
and `Provision` also succeeds unconditionally, so the absence of the
template is not detected at startup. -/
theorem C3_domain_error_only_when_present_without_value :
    (∀ (m : Middleware) (host port : Str) (db : Int) (pfx tk : Str) (rest : List Directive),
      mwLoop m host port db pfx tk (⟨"domain".toList, none⟩ :: rest) =
        .error "expect domain value".toList) ∧
    (∀ (ds : List Directive) (m : Middleware),
      (∀ d ∈ ds, d.name ≠ "domain".toList) →
      mwUnmarshalCaddyfile ds = .ok m → m.Domain = []) ∧
    (∀ m : Middleware, mwProvision m = .ok m) := by
  refine ⟨fun m host port db pfx tk rest => rfl, fun ds m hno h => ?_, fun m => rfl⟩
  exact mwLoop_preserves_domain ds _ _ _ _ _ _ m hno h

/-- C3 witness: the present-without-value directive errors from the
default state, and the empty configuration yields an empty domain. -/
theorem C3_domain_error_witness :
    mwLoop {} "127.0.0.1".toList "6379".toList 0 "s".toList "token".toList
      [⟨"domain".toList, none⟩] = .error "expect domain value".toList ∧
    mwDefaultParsed.Domain = [] := by
  constructor
  · exact C3_domain_error_only_when_present_without_value.1 {} "127.0.0.1".toList
      "6379".toList 0 "s".toList "token".toList []
  · exact C3_domain_error_only_when_present_without_value.2.1 [] mwDefaultParsed
      (by simp) rfl

/-- C3 counterexample: the claim says configuration never succeeds with
an absent `domain` template, but unmarshalling an empty directive block
— which supplies no template — succeeds, and provisioning the resulting
middleware succeeds as well, with the template empty. -/
theorem C3_absent_domain_accepted :
    mwUnmarshalCaddyfile [] = .ok mwDefaultParsed ∧
    mwProvision mwDefaultParsed = .ok mwDefaultParsed ∧
    mwDefaultParsed.Domain = [] :=
  ⟨rfl, rfl, rfl⟩

/-- Unfolding equation for `replaceFirstAux` on a non-empty subject. -/
theorem replaceFirstAux_cons (pat rep : Str) (c : Char) (rest : Str) :
    replaceFirstAux pat rep (c :: rest) =
    (if pat.isPrefixOf (c :: rest) then rep ++ (c :: rest).drop pat.length
    else c :: replaceFirstAux pat rep rest) := by
  rw [replaceFirstAux.eq_def]

/-- First-occurrence characterization of `replaceFirstAux`: if the
subject splits as `a ++ pat ++ b` and no match of `pat` starts inside
`a`, then exactly that occurrence is replaced and everything else —
including any further occurrence inside `b` — is copied verbatim. -/
theorem replaceFirstAux_first_split (pat rep : Str) (hp : pat ≠ []) :
    ∀ (a b : Str),
      (∀ i < a.length, ¬ pat.isPrefixOf ((a ++ (pat ++ b)).drop i) = true) →
      replaceFirstAux pat rep (a ++ (pat ++ b)) = a ++ (rep ++ b) := by
  intro a
  induction a with
  | nil =>
    intro b _
    cases pat with
    | nil => exact absurd rfl hp
    | cons q qs =>
      have hpre : (q :: qs).isPrefixOf (q :: (qs ++ b)) = true := by
        rw [← List.cons_append]
        exact List.isPrefixOf_iff_prefix.mpr (List.prefix_append _ _)
      rw [List.nil_append, List.nil_append, List.cons_append, replaceFirstAux_cons,
        if_pos hpre, ← List.cons_append]
      simp [List.drop_left]
  | cons c a ih =>
    intro b hfirst
    have h0 : ¬ pat.isPrefixOf (c :: (a ++ (pat ++ b))) = true := by
      have h1 := hfirst 0 (by simp)
      rw [List.cons_append, List.drop_zero] at h1
      exact h1
    rw [List.cons_append, List.cons_append, replaceFirstAux_cons, if_neg h0]
    congr 1
    refine ih b fun i hi => ?_
    have h1 := hfirst (i + 1) (by simpa using Nat.succ_lt_succ hi)
    rw [List.cons_append, List.drop_succ_cons] at h1
    exact h1

/-- When no match of `pat` starts anywhere in the subject,
`replaceFirstAux` copies the subject verbatim. -/
theorem replaceFirstAux_no_occurrence (pat rep : Str) :
    ∀ s : Str, (∀ i < s.length, ¬ pat.isPrefixOf (s.drop i) = true) →
      replaceFirstAux pat rep s = s := by
  intro s
  induction s with
  | nil =>
    intro
    rw [replaceFirstAux.eq_def]
  | cons c rest ih =>
    intro h
    have h0 : ¬ pat.isPrefixOf (c :: rest) = true := by
      have h1 := h 0 (by simp)
      rw [List.drop_zero] at h1
      exact h1
    rw [replaceFirstAux_cons, if_neg h0]
    congr 1
    refine ih fun i hi => ?_
    have h1 := h (i + 1) (by simpa using Nat.succ_lt_succ hi)
    rw [List.drop_succ_cons] at h1
    exact h1

/-- C7: when the fetch succeeds with a non-empty token and the template
splits as `a ++ "{{token}}" ++ b` at the first placeholder occurrence,
the middleware sets the request host to the template with exactly that
one occurrence replaced by the token — a single substitution, never
global, so any later occurrence inside `b` survives verbatim. -/
theorem C7_first_occurrence_substitution (m : Middleware) (host : Str)
    (fetch : Str → Str → FetchResult) (next : Str → Option Str) (token a b : Str)
    (hf : fetch (m.Pfx ++ ':' :: host) m.TokenKey = .ok token)
    (ht : token ≠ [])
    (hd : m.Domain = a ++ ("{{token}}".toList ++ b))
    (hfirst : ∀ i < a.length,
      ¬ "{{token}}".toList.isPrefixOf ((a ++ ("{{token}}".toList ++ b)).drop i) = true) :
    (serveHTTP m host fetch next).host = a ++ (token ++ b) := by
  unfold serveHTTP
  rw [hf]
  dsimp only
  rw [if_pos ht]
  unfold stringsReplaceOne
  rw [if_neg (show ¬ ("{{token}}".toList = ([] : Str)) by decide), hd]
  exact replaceFirstAux_first_split "{{token}}".toList token (by decide) a b hfirst

/-- C7 witness: stored token "abc" with template "{{token}}.test.com"
rewrites the host to "abc.test.com". -/
theorem C7_first_occurrence_substitution_witness :
    (serveHTTP
      { Pfx := "s".toList, TokenKey := "token".toList,
        Domain := "{{token}}.test.com".toList, redisOptions := ⟨[], 0⟩ }
      "www.example.com".toList (fun _ _ => FetchResult.ok "abc".toList)
      (fun _ => none)).host = "abc.test.com".toList := by
  have h := C7_first_occurrence_substitution
    { Pfx := "s".toList, TokenKey := "token".toList,
      Domain := "{{token}}.test.com".toList, redisOptions := ⟨[], 0⟩ }
    "www.example.com".toList (fun _ _ => FetchResult.ok "abc".toList) (fun _ => none)
    "abc".toList [] ".test.com".toList rfl (by decide) rfl
    (by intro i hi; simp at hi)
  simpa using h

/-- C10: when the fetch succeeds with a non-empty token but the
configured template contains no occurrence of the placeholder
"{{token}}", the middleware sets the host to the template verbatim,
discarding the token. -/
theorem C10_no_placeholder_template (m : Middleware) (host : Str)
    (fetch : Str → Str → FetchResult) (next : Str → Option Str) (token : Str)
    (hf : fetch (m.Pfx ++ ':' :: host) m.TokenKey = .ok token)
    (ht : token ≠ [])
    (hno : ∀ i < m.Domain.length,
      ¬ "{{token}}".toList.isPrefixOf (m.Domain.drop i) = true) :
    (serveHTTP m host fetch next).host = m.Domain := by
  unfold serveHTTP
  rw [hf]
  dsimp only
  rw [if_pos ht]
  unfold stringsReplaceOne
  rw [if_neg (show ¬ ("{{token}}".toList = ([] : Str)) by decide)]
  exact replaceFirstAux_no_occurrence "{{token}}".toList token m.Domain hno

/-- C10 witness: a template without the placeholder is used verbatim
even though the fetched token "abc" is non-empty. -/
theorem C10_no_placeholder_template_witness :
    (serveHTTP
      { Pfx := "s".toList, TokenKey := "token".toList,
        Domain := "static.test.com".toList, redisOptions := ⟨[], 0⟩ }
      "www.example.com".toList (fun _ _ => FetchResult.ok "abc".toList)
      (fun _ => none)).host = "static.test.com".toList :=
  C10_no_placeholder_template
    { Pfx := "s".toList, TokenKey := "token".toList,
      Domain := "static.test.com".toList, redisOptions := ⟨[], 0⟩ }
    "www.example.com".toList (fun _ _ => FetchResult.ok "abc".toList) (fun _ => none)
    "abc".toList rfl (by decide) (by decide)

/-- C8: when the token fetch fails, the middleware returns that error,
leaves the request host unchanged, and never invokes the next handler
— there is no fallback to the original host on lookup failure. -/
theorem C8_fetch_error_fails_closed (m : Middleware) (host : Str)
    (fetch : Str → Str → FetchResult) (next : Str → Option Str) (e : Str)
    (hf : fetch (m.Pfx ++ ':' :: host) m.TokenKey = .err e) :
    serveHTTP m host fetch next = ⟨host, false, some e⟩ := by
  unfold serveHTTP
  rw [hf]

/-- C8 witness: a failing fetch is propagated with the host untouched
and the chain not continued. -/
theorem C8_fetch_error_fails_closed_witness :
    serveHTTP
      { Pfx := "s".toList, TokenKey := "token".toList,
        Domain := "{{token}}.test.com".toList, redisOptions := ⟨[], 0⟩ }
      "www.example.com".toList (fun _ _ => FetchResult.err "redis: nil".toList)
      (fun _ => none) =
    ⟨"www.example.com".toList, false, some "redis: nil".toList⟩ :=
  C8_fetch_error_fails_closed
    { Pfx := "s".toList, TokenKey := "token".toList,
      Domain := "{{token}}.test.com".toList, redisOptions := ⟨[], 0⟩ }
    "www.example.com".toList (fun _ _ => FetchResult.err "redis: nil".toList)
    (fun _ => none) "redis: nil".toList rfl

/-- C9: when the fetched token is the empty string, the middleware
leaves the request host unchanged and still delegates to the next
handler, returning whatever the next handler returns. -/
theorem C9_empty_token_passthrough (m : Middleware) (host : Str)
    (fetch : Str → Str → FetchResult) (next : Str → Option Str)
    (hf : fetch (m.Pfx ++ ':' :: host) m.TokenKey = .ok []) :
    serveHTTP m host fetch next = ⟨host, true, next host⟩ := by
  unfold serveHTTP
  rw [hf]
  rfl

/-- C9 witness: an empty stored token leaves the host unchanged and the
next handler runs on it. -/
theorem C9_empty_token_passthrough_witness :
    serveHTTP
      { Pfx := "s".toList, TokenKey := "token".toList,
        Domain := "{{token}}.test.com".toList, redisOptions := ⟨[], 0⟩ }
      "www.example.com".toList (fun _ _ => FetchResult.ok [])
      (fun _ => some "next failed".toList) =
    ⟨"www.example.com".toList, true, some "next failed".toList⟩ :=
  C9_empty_token_passthrough
    { Pfx := "s".toList, TokenKey := "token".toList,
      Domain := "{{token}}.test.com".toList, redisOptions := ⟨[], 0⟩ }
    "www.example.com".toList (fun _ _ => FetchResult.ok [])
    (fun _ => some "next failed".toList) rfl
